import Mathlib

/-!
Verification of the qdrant-quantization-benchmark upload-and-measurement engine.

The remote Qdrant service is modelled by oracles: for the uploader, a function
`remote : ℕ → Option ℕ` giving, for the n-th upsert call issued in a run,
`none` (success) or `some e` (a transient `ResponseHandlingException` carrying
an opaque error code `e`); for the benchmark engine, a function `lat : ℕ → ℚ`
giving the measured round-trip latency of the n-th `query_points` call.
Every remote call a component issues is recorded in an event trace, so that
claims about how many calls are made, in which order, and with which payloads
become statements about the trace.  Dataset items are opaque to the uploader
(it only forwards them as payloads), so items are modelled as natural-number
tokens; embeddings are lists of rationals.
-/

deriving instance DecidableEq for Except

namespace QQB

/-- The vector field of a point: either a mapping keyed by the vector name
(named vectors) or a single array (`uploader.py`, `_prepare_points`). -/
inductive VectorData where
  | named (name : String) (v : List ℚ)
  | plain (v : List ℚ)
deriving DecidableEq

/-- One stored record: identifier, vector(s), payload (the dataset item). -/
structure Point where
  id : ℕ
  vector : VectorData
  payload : ℕ
deriving DecidableEq

/-- Mirror of `UploadConfig` from `config.py` (defaults: 50, False, 3, 2.0). -/
structure UploadConfig where
  batch_size : ℕ
  enable_retry : Bool
  max_retries : ℕ
  initial_backoff : ℚ

/-- Failures surfaced by `upload_batch`: the size-mismatch `ValueError`, the
`ValueError` Python raises when `range` is given step 0, and a transient
remote error propagated out of an upsert. -/
inductive UploadError where
  | sizeMismatch (nitems nvecs : ℕ)
  | badRange
  | transient (e : ℕ)
deriving DecidableEq

/-- Observable actions of the uploader: an upsert call (with its outcome) or
a `time.sleep` of the given number of seconds. -/
inductive UploadEvent where
  | upsert (collection : String) (points : List Point) (ok : Bool)
  | sleep (seconds : ℚ)
deriving DecidableEq

/-- Model of `DataUploader._prepare_points`: one `PointStruct` per entry of
`enumerate(zip(batch_dataset, batch_embeddings))`, with id
`start_id + idx` and the vector stored named or plain. -/
def prepare_points (batch_dataset : List ℕ) (batch_embeddings : List (List ℚ))
    (start_id : ℕ) (named_vector : Bool) (vector_name : String) : List Point :=
  (List.zip batch_dataset batch_embeddings).enum.map fun p =>
    ⟨start_id + p.1,
     if named_vector then VectorData.named vector_name p.2.2 else VectorData.plain p.2.2,
     p.2.1⟩

/-- The `for attempt in range(max_retries)` loop of
`DataUploader._upload_with_retry`, iterating over the list of attempt
numbers and threading the global upsert-call counter.  Returns the event
trace, the next call counter, and either the uploaded count or the error of
the last failed attempt.  The `([], callIdx, .ok 0)` base case is the
`return 0` fall-through reached only when `max_retries = 0`. -/
def retry_loop (remote : ℕ → Option ℕ) (backoff : ℚ) (collection : String)
    (points : List Point) (maxRetries : ℕ) :
    List ℕ → ℕ → List UploadEvent × ℕ × Except UploadError ℕ
  | [], callIdx => ([], callIdx, Except.ok 0)
  | attempt :: rest, callIdx =>
    match remote callIdx with
    | none => ([UploadEvent.upsert collection points true], callIdx + 1, Except.ok points.length)
    | some e =>
      if attempt < maxRetries - 1 then
        let wait : ℚ := backoff * ((attempt : ℚ) + 1)
        let out := retry_loop remote backoff collection points maxRetries rest (callIdx + 1)
        (UploadEvent.upsert collection points false :: UploadEvent.sleep wait :: out.1, out.2)
      else
        ([UploadEvent.upsert collection points false], callIdx + 1,
         Except.error (UploadError.transient e))

/-- Model of `DataUploader._upload_with_retry` for one batch, starting at global
upsert-call index `callIdx`. -/
def upload_with_retry (remote : ℕ → Option ℕ) (backoff : ℚ) (collection : String)
    (points : List Point) (maxRetries callIdx : ℕ) :
    List UploadEvent × ℕ × Except UploadError ℕ :=
  retry_loop remote backoff collection points maxRetries (List.range maxRetries) callIdx

/-- Python's `range(start, stop, step)` for a positive step. -/
def pyRange (start stop step : ℕ) : List ℕ :=
  List.range' start ((stop - start + step - 1) / step) step

/-- The batch loop of `DataUploader.upload_batch`: iterate over the batch
start offsets `range(0, len(dataset), batch_size)`, slicing dataset and
embeddings, preparing points, and either calling upsert directly or going
through the retry routine.  A failure aborts the loop and propagates. -/
def upload_batch_loop (remote : ℕ → Option ℕ) (cfg : UploadConfig) (collection : String)
    (dataset : List ℕ) (embeddings : List (List ℚ)) (named_vector : Bool) (vector_name : String) :
    List ℕ → ℕ → ℕ → List UploadEvent × ℕ × Except UploadError ℕ
  | [], callIdx, total => ([], callIdx, Except.ok total)
  | i :: rest, callIdx, total =>
    let batch_dataset := (dataset.drop i).take cfg.batch_size
    let batch_embeddings := (embeddings.drop i).take cfg.batch_size
    let points := prepare_points batch_dataset batch_embeddings i named_vector vector_name
    if cfg.enable_retry then
      let r := upload_with_retry remote cfg.initial_backoff collection points cfg.max_retries callIdx
      match r.2.2 with
      | Except.ok n =>
        let out := upload_batch_loop remote cfg collection dataset embeddings named_vector
          vector_name rest r.2.1 (total + n)
        (r.1 ++ out.1, out.2)
      | Except.error e => (r.1, r.2.1, Except.error e)
    else
      match remote callIdx with
      | none =>
        let out := upload_batch_loop remote cfg collection dataset embeddings named_vector
          vector_name rest (callIdx + 1) (total + points.length)
        (UploadEvent.upsert collection points true :: out.1, out.2)
      | some e =>
        ([UploadEvent.upsert collection points false], callIdx + 1,
         Except.error (UploadError.transient e))

/-- Model of `DataUploader.upload_batch`: size check, then the batch loop over
`range(0, len(dataset), batch_size)`.  Returns the event trace and either
the total uploaded count or the first error. -/
def upload_batch (remote : ℕ → Option ℕ) (cfg : UploadConfig) (collection : String)
    (dataset : List ℕ) (embeddings : List (List ℚ)) (named_vector : Bool)
    (vector_name : String) : List UploadEvent × Except UploadError ℕ :=
  if dataset.length ≠ embeddings.length then
    ([], Except.error (UploadError.sizeMismatch dataset.length embeddings.length))
  else if cfg.batch_size = 0 then
    ([], Except.error UploadError.badRange)
  else
    ((upload_batch_loop remote cfg collection dataset embeddings named_vector
        vector_name (pyRange 0 dataset.length cfg.batch_size) 0 0).1,
     (upload_batch_loop remote cfg collection dataset embeddings named_vector
        vector_name (pyRange 0 dataset.length cfg.batch_size) 0 0).2.2)

/-- The sleep durations occurring in a trace, in order. -/
def sleepsOf (evs : List UploadEvent) : List ℚ :=
  evs.filterMap fun ev =>
    match ev with
    | UploadEvent.sleep s => some s
    | _ => none

/-- The number of upsert calls in a trace. -/
def upsertCount (evs : List UploadEvent) : ℕ :=
  (evs.filter fun ev =>
    match ev with
    | UploadEvent.upsert _ _ _ => true
    | _ => false).length

/-- The points carried by an upsert event (empty for a sleep). -/
def UploadEvent.pointsOf : UploadEvent → List Point
  | UploadEvent.upsert _ pts _ => pts
  | UploadEvent.sleep _ => []

theorem prepare_points_length (ds : List ℕ) (es : List (List ℚ)) (s : ℕ) (nv : Bool)
    (vn : String) : (prepare_points ds es s nv vn).length = min ds.length es.length := by
  simp [prepare_points]

theorem prepare_points_map_id (ds : List ℕ) (es : List (List ℚ)) (s : ℕ) (nv : Bool)
    (vn : String) :
    (prepare_points ds es s nv vn).map Point.id
      = (List.range (min ds.length es.length)).map (fun t => s + t) := by
  have h1 : (prepare_points ds es s nv vn).map Point.id
      = ((List.zip ds es).enum.map Prod.fst).map (fun t => s + t) := by
    simp only [prepare_points, List.map_map]
    rfl
  rw [h1, List.enum_map_fst, List.length_zip]

theorem numBatches_succ (r B : ℕ) (hB : 0 < B) (hr : 0 < r) :
    (r + B - 1) / B = (r - B + B - 1) / B + 1 := by
  rcases le_or_lt r B with h | h
  · have h1 : r + B - 1 = (r - 1) + B := by omega
    have h2 : r - B = 0 := by omega
    rw [h1, Nat.add_div_right _ hB, h2]
    rw [Nat.div_eq_of_lt (by omega), Nat.div_eq_of_lt (by omega)]
  · have h1 : r + B - 1 = ((r - 1 - B) + B) + B := by omega
    have h2 : r - B + B - 1 = (r - 1 - B) + B := by omega
    rw [h1, Nat.add_div_right _ hB, h2, Nat.add_div_right _ hB]

/-- Closed form of the batch loop when every upsert succeeds and retry is
disabled: one successful upsert per batch offset, in order, uploading
everything that remains. -/
theorem upload_loop_ok (cfg : UploadConfig) (c : String) (ds : List ℕ) (es : List (List ℚ))
    (nv : Bool) (vn : String) (hlen : ds.length = es.length)
    (hretry : cfg.enable_retry = false) (hB : 0 < cfg.batch_size) :
    ∀ m i callIdx total, m = (ds.length - i + cfg.batch_size - 1) / cfg.batch_size →
      upload_batch_loop (fun _ => none) cfg c ds es nv vn
          (List.range' i m cfg.batch_size) callIdx total
        = ((List.range' i m cfg.batch_size).map (fun j =>
             UploadEvent.upsert c (prepare_points ((ds.drop j).take cfg.batch_size)
               ((es.drop j).take cfg.batch_size) j nv vn) true),
           callIdx + m, Except.ok (total + (ds.length - i))) := by
  intro m
  induction m with
  | zero =>
    intro i callIdx total hm
    have hr : ds.length - i = 0 := by
      by_contra h
      have h2 : cfg.batch_size ≤ ds.length - i + cfg.batch_size - 1 := by omega
      have h3 : 1 ≤ (ds.length - i + cfg.batch_size - 1) / cfg.batch_size :=
        (Nat.one_le_div_iff hB).mpr h2
      omega
    simp [upload_batch_loop, hr]
  | succ m ih =>
    intro i callIdx total hm
    have hr : 1 ≤ ds.length - i := by
      by_contra h
      have h0 : ds.length - i = 0 := by omega
      rw [h0, Nat.div_eq_of_lt (by omega)] at hm
      omega
    have hm' : m = (ds.length - (i + cfg.batch_size) + cfg.batch_size - 1) / cfg.batch_size := by
      have h4 := numBatches_succ (ds.length - i) cfg.batch_size hB hr
      have he : ds.length - i - cfg.batch_size = ds.length - (i + cfg.batch_size) := by omega
      rw [he] at h4
      omega
    have hrec := ih (i + cfg.batch_size) (callIdx + 1)
      (total + (prepare_points ((ds.drop i).take cfg.batch_size)
        ((es.drop i).take cfg.batch_size) i nv vn).length) hm'
    rw [List.range'_succ]
    simp only [upload_batch_loop, hretry, Bool.false_eq_true, if_false, hrec, List.map_cons,
      Prod.mk.injEq]
    refine ⟨trivial, by omega, ?_⟩
    have hpl : (prepare_points ((ds.drop i).take cfg.batch_size)
        ((es.drop i).take cfg.batch_size) i nv vn).length
        = min cfg.batch_size (ds.length - i) := by
      rw [prepare_points_length]
      simp [hlen]
    rw [hpl]
    congr 1
    omega

/-- Claim C1: upload splits the corpus into consecutive batches of size `B` (last
batch possibly smaller), issues exactly one upsert call per batch in
ascending offset order, assigns each point in batch `k` the identifier
`k·B + in_batch_index`, and reports the full corpus size as uploaded. -/
theorem C1_upload_batching (c : String) (ds : List ℕ) (es : List (List ℚ)) (B mr : ℕ)
    (ib : ℚ) (nv : Bool) (vn : String) (hlen : ds.length = es.length) (hB : 0 < B) :
    (upload_batch (fun _ => none) ⟨B, false, mr, ib⟩ c ds es nv vn).2
        = Except.ok ds.length ∧
    (upload_batch (fun _ => none) ⟨B, false, mr, ib⟩ c ds es nv vn).1
        = (List.range' 0 ((ds.length + B - 1) / B) B).map (fun j =>
            UploadEvent.upsert c
              (prepare_points ((ds.drop j).take B) ((es.drop j).take B) j nv vn) true) ∧
    (upload_batch (fun _ => none) ⟨B, false, mr, ib⟩ c ds es nv vn).1.length
        = (ds.length + B - 1) / B ∧
    ∀ k, k < (ds.length + B - 1) / B →
      ((upload_batch (fun _ => none) ⟨B, false, mr, ib⟩ c ds es nv vn).1.getD k
          (UploadEvent.sleep 0)).pointsOf.map Point.id
        = (List.range (min B (ds.length - k * B))).map (fun t => k * B + t) := by
  have hpr : (⟨B, false, mr, ib⟩ : UploadConfig).batch_size = B := rfl
  have hmain := upload_loop_ok ⟨B, false, mr, ib⟩ c ds es nv vn hlen rfl hB
    ((ds.length + B - 1) / B) 0 0 0 (by rw [Nat.sub_zero])
  rw [hpr] at hmain
  simp only [Nat.sub_zero, Nat.zero_add] at hmain
  have hub : upload_batch (fun _ => none) ⟨B, false, mr, ib⟩ c ds es nv vn
      = ((List.range' 0 ((ds.length + B - 1) / B) B).map (fun j =>
            UploadEvent.upsert c
              (prepare_points ((ds.drop j).take B) ((es.drop j).take B) j nv vn) true),
          Except.ok ds.length) := by
    have hB0 : ¬((⟨B, false, mr, ib⟩ : UploadConfig).batch_size = 0) := by omega
    rw [upload_batch, if_neg (not_ne_iff.mpr hlen), if_neg hB0]
    simp only [pyRange, hpr, Nat.sub_zero]
    rw [hmain]
  refine ⟨by rw [hub], by rw [hub], by rw [hub]; simp [List.length_range'], ?_⟩
  intro k hk
  rw [hub]
  have hklen : k < ((List.range' 0 ((ds.length + B - 1) / B) B).map (fun j =>
      UploadEvent.upsert c
        (prepare_points ((ds.drop j).take B) ((es.drop j).take B) j nv vn) true)).length := by
    simp [List.length_range', hk]
  rw [List.getD_eq_getElem _ _ hklen, List.getElem_map, List.getElem_range']
  simp only [Nat.zero_add, UploadEvent.pointsOf]
  rw [prepare_points_map_id]
  have hmin : min ((ds.drop (B * k)).take B).length ((es.drop (B * k)).take B).length
      = min B (ds.length - k * B) := by
    simp [hlen, Nat.mul_comm]
  rw [hmin, Nat.mul_comm]

/-- Witness for C1 at the spec's concrete scenario: 20 items, batch size 5,
retry disabled, giving 4 upsert calls of 5 points each. -/
theorem C1_upload_batching_witness :
    ((List.range 20).length = ((List.range 20).map fun _ => [(1 : ℚ)]).length ∧ 0 < 5) ∧
    (upload_batch (fun _ => none) ⟨5, false, 3, 2⟩ "c" (List.range 20)
        ((List.range 20).map fun _ => [(1 : ℚ)]) true "dense").2
      = Except.ok (List.range 20).length ∧
    (upload_batch (fun _ => none) ⟨5, false, 3, 2⟩ "c" (List.range 20)
        ((List.range 20).map fun _ => [(1 : ℚ)]) true "dense").1.length
      = ((List.range 20).length + 5 - 1) / 5 :=
  ⟨⟨by simp, by decide⟩,
    (C1_upload_batching "c" (List.range 20) ((List.range 20).map fun _ => [(1 : ℚ)]) 5 3 2
      true "dense" (by simp) (by decide)).1,
    (C1_upload_batching "c" (List.range 20) ((List.range 20).map fun _ => [(1 : ℚ)]) 5 3 2
      true "dense" (by simp) (by decide)).2.2.1⟩

/-- Claim C4: mismatched dataset and embeddings lengths fail with the
size-mismatch error and produce an empty trace (zero remote calls). -/
theorem C4_size_mismatch (remote : ℕ → Option ℕ) (cfg : UploadConfig) (c : String)
    (ds : List ℕ) (es : List (List ℚ)) (nv : Bool) (vn : String)
    (h : ds.length ≠ es.length) :
    upload_batch remote cfg c ds es nv vn
      = ([], Except.error (UploadError.sizeMismatch ds.length es.length)) := by
  simp [upload_batch, h]

/-- Witness for C4: one item against zero embeddings. -/
theorem C4_size_mismatch_witness :
    ([0].length ≠ ([] : List (List ℚ)).length) ∧
    upload_batch (fun _ => none) ⟨50, false, 3, 2⟩ "c" [0] [] true "dense"
      = ([], Except.error (UploadError.sizeMismatch 1 0)) :=
  ⟨by decide,
    C4_size_mismatch (fun _ => none) ⟨50, false, 3, 2⟩ "c" [0] [] true "dense" (by decide)⟩

/-- Claim C10: uploading an empty corpus succeeds with count 0 and makes no
remote call, for every collection name, remote behaviour and configuration
with a positive batch size. -/
theorem C10_empty_upload (remote : ℕ → Option ℕ) (cfg : UploadConfig) (c : String)
    (nv : Bool) (vn : String) (hB : 0 < cfg.batch_size) :
    upload_batch remote cfg c [] [] nv vn = ([], Except.ok 0) := by
  have hB0 : cfg.batch_size ≠ 0 := by omega
  rw [upload_batch]
  simp only [List.length_nil, ne_eq, not_true_eq_false, if_false, hB0, pyRange]
  rw [Nat.div_eq_of_lt (by omega)]
  simp [upload_batch_loop]

/-- Witness for C10 with the default configuration. -/
theorem C10_empty_upload_witness :
    0 < (50 : ℕ) ∧
    upload_batch (fun _ => none) ⟨50, false, 3, 2⟩ "docs" [] [] true "dense"
      = ([], Except.ok 0) :=
  ⟨by decide,
    C10_empty_upload (fun _ => none) ⟨50, false, 3, 2⟩ "docs" true "dense" (by decide)⟩

/-- Closed form of the retry loop when the first `f` attempts fail
transiently and attempt `f` (0-based) succeeds, with `f` below the attempt
budget: each failed attempt is followed by a sleep of
`backoff × attempt_number` (1-based), then the successful upsert. -/
theorem retry_loop_ok (remote : ℕ → Option ℕ) (b : ℚ) (c : String) (pts : List Point)
    (m : ℕ) :
    ∀ f (err : ℕ → ℕ) a callIdx,
      (∀ j, j < f → remote (callIdx + j) = some (err j)) →
      remote (callIdx + f) = none → a + f < m →
      retry_loop remote b c pts m (List.range' a (m - a)) callIdx
        = ((List.range f).flatMap (fun j =>
              [UploadEvent.upsert c pts false,
               UploadEvent.sleep (b * (((a + j : ℕ) : ℚ) + 1))])
            ++ [UploadEvent.upsert c pts true],
           callIdx + f + 1, Except.ok pts.length) := by
  intro f
  induction f with
  | zero =>
    intro err a callIdx hf hs ham
    obtain ⟨k, hk⟩ : ∃ k, m - a = k + 1 := ⟨m - a - 1, by omega⟩
    rw [Nat.add_zero] at hs
    rw [hk, List.range'_succ]
    simp [retry_loop, hs]
  | succ f ih =>
    intro err a callIdx hf hs ham
    obtain ⟨k, hk⟩ : ∃ k, m - a = k + 1 := ⟨m - a - 1, by omega⟩
    have hk' : m - (a + 1) = k := by omega
    have h0 : remote callIdx = some (err 0) := by
      have h' := hf 0 (by omega)
      rwa [Nat.add_zero] at h'
    have hcond : a < m - 1 := by omega
    have hrec := ih (fun j => err (j + 1)) (a + 1) (callIdx + 1)
      (fun j hj => by
        have h' := hf (j + 1) (by omega)
        rwa [show callIdx + (j + 1) = callIdx + 1 + j by omega] at h')
      (by rwa [show callIdx + 1 + f = callIdx + (f + 1) by omega]) (by omega)
    rw [hk'] at hrec
    rw [hk, List.range'_succ]
    simp only [retry_loop, h0, if_pos hcond, hrec, Prod.mk.injEq]
    refine ⟨?_, by omega, trivial⟩
    rw [List.range_succ_eq_map, List.flatMap_cons, List.flatMap_map]
    simp only [Nat.add_zero, List.cons_append, List.nil_append, Nat.succ_eq_add_one]
    have hfg : (fun j : ℕ => [UploadEvent.upsert c pts false,
        UploadEvent.sleep (b * (((a + (j + 1) : ℕ) : ℚ) + 1))])
        = (fun j : ℕ => [UploadEvent.upsert c pts false,
            UploadEvent.sleep (b * (((a + 1 + j : ℕ) : ℚ) + 1))]) := by
      funext j
      rw [show a + (j + 1) = a + 1 + j by omega]
    rw [hfg]

/-- Claim C2: with retry enabled, a batch whose first `f` upsert attempts fail
transiently and whose attempt `f` succeeds (with `f` below `max_retries`)
sleeps `initial_backoff × attempt_number` seconds before each retry
(attempt_number starting at 1) and returns the batch size; in particular,
with `max_retries = 3` and `initial_backoff = 2.0`, a 3-point upload whose
first two upserts fail waits 2.0 s then 4.0 s and returns success with
count 3. -/
theorem C2_retry_linear_backoff (remote : ℕ → Option ℕ) (err : ℕ → ℕ) (b : ℚ) (c : String)
    (pts : List Point) (m f : ℕ)
    (hf : ∀ j, j < f → remote j = some (err j)) (hs : remote f = none) (hfm : f < m) :
    (upload_with_retry remote b c pts m 0).2.2 = Except.ok pts.length ∧
    sleepsOf (upload_with_retry remote b c pts m 0).1
      = (List.range f).map (fun j => b * ((j : ℚ) + 1)) ∧
    (upload_batch (fun i => if i < 2 then some 9 else none) ⟨50, true, 3, 2⟩ "c"
        [0, 1, 2] [[1], [2], [3]] true "dense").2 = Except.ok 3 ∧
    sleepsOf (upload_batch (fun i => if i < 2 then some 9 else none) ⟨50, true, 3, 2⟩ "c"
        [0, 1, 2] [[1], [2], [3]] true "dense").1 = [2, 4] := by
  have hzf : ∀ j, j < f → remote (0 + j) = some (err j) := fun j hj => by
    rw [Nat.zero_add]; exact hf j hj
  have hzs : remote (0 + f) = none := by rw [Nat.zero_add]; exact hs
  have hmain := retry_loop_ok remote b c pts m f err 0 0 hzf hzs (by omega)
  have hur : upload_with_retry remote b c pts m 0
      = ((List.range f).flatMap (fun j =>
            [UploadEvent.upsert c pts false,
             UploadEvent.sleep (b * (((0 + j : ℕ) : ℚ) + 1))])
          ++ [UploadEvent.upsert c pts true],
         0 + f + 1, Except.ok pts.length) := by
    rw [upload_with_retry, List.range_eq_range']
    rw [show m = m - 0 by omega] at hmain
    exact hmain
  refine ⟨by rw [hur], ?_, ?_, ?_⟩
  · rw [hur]
    simp only [sleepsOf, List.filterMap_append, List.filterMap_flatMap]
    simp [List.flatMap_def, List.map_map, Function.comp_def]
  · norm_num [upload_batch, upload_batch_loop, upload_with_retry, retry_loop, pyRange,
      prepare_points]
  · norm_num [upload_batch, upload_batch_loop, upload_with_retry, retry_loop, pyRange,
      prepare_points, sleepsOf, List.filterMap_cons, List.filterMap_nil]

/-- Witness for C2: backoff 2.0, budget 3 attempts, two failures then
success. -/
theorem C2_retry_linear_backoff_witness :
    ((∀ j, j < 2 → (fun i => if i < 2 then some 9 else none : ℕ → Option ℕ) j = some 9) ∧
      (fun i => if i < 2 then some 9 else none : ℕ → Option ℕ) 2 = none ∧ 2 < 3) ∧
    (upload_with_retry (fun i => if i < 2 then some 9 else none) 2 "c" [] 3 0).2.2
      = Except.ok ([] : List Point).length ∧
    sleepsOf (upload_with_retry (fun i => if i < 2 then some 9 else none) 2 "c" [] 3 0).1
      = (List.range 2).map (fun j => 2 * ((j : ℚ) + 1)) :=
  ⟨⟨by decide, by decide, by decide⟩,
    (C2_retry_linear_backoff (fun i => if i < 2 then some 9 else none) (fun _ => 9) 2 "c"
      [] 3 2 (by decide) (by decide) (by decide)).1,
    (C2_retry_linear_backoff (fun i => if i < 2 then some 9 else none) (fun _ => 9) 2 "c"
      [] 3 2 (by decide) (by decide) (by decide)).2.1⟩

/-- Claim C3: with `max_retries = 2` and a permanently failing remote upsert, the
retry routine issues exactly 2 upsert calls and then re-raises the
underlying transient error unchanged, and the enclosing upload aborts with
that error. -/
theorem C3_retry_exhaustion (remote : ℕ → Option ℕ) (e : ℕ)
    (he : ∀ i, remote i = some e) (b : ℚ) (c : String) (pts : List Point) :
    upsertCount (upload_with_retry remote b c pts 2 0).1 = 2 ∧
    (upload_with_retry remote b c pts 2 0).2.2
      = Except.error (UploadError.transient e) ∧
    ∀ (B : ℕ) (ib : ℚ) (ds : List ℕ) (es : List (List ℚ)) (nv : Bool) (vn : String),
      0 < B → ds.length = es.length → ds ≠ [] →
      (upload_batch remote ⟨B, true, 2, ib⟩ c ds es nv vn).2
        = Except.error (UploadError.transient e) := by
  have hur : ∀ (b' : ℚ) (pts' : List Point) (callIdx : ℕ),
      upload_with_retry remote b' c pts' 2 callIdx
      = ([UploadEvent.upsert c pts' false, UploadEvent.sleep (b' * ((0 : ℚ) + 1)),
          UploadEvent.upsert c pts' false],
         callIdx + 2, Except.error (UploadError.transient e)) := by
    intro b' pts' callIdx
    rw [upload_with_retry]
    show retry_loop remote b' c pts' 2 [0, 1] callIdx = _
    simp [retry_loop, he callIdx, he (callIdx + 1)]
  refine ⟨by rw [hur]; rfl, by rw [hur], ?_⟩
  intro B ib ds es nv vn hB hlen hne
  have hB0 : ¬((⟨B, true, 2, ib⟩ : UploadConfig).batch_size = 0) := by
    show ¬(B = 0)
    omega
  rw [upload_batch, if_neg (not_ne_iff.mpr hlen), if_neg hB0]
  have hn1 : 1 ≤ ds.length := by
    cases ds with
    | nil => exact absurd rfl hne
    | cons x xs => simp
  obtain ⟨q, hq⟩ : ∃ q, (ds.length - 0 + B - 1) / B = q + 1 := by
    refine ⟨(ds.length - 0 + B - 1) / B - 1, ?_⟩
    have h2 : B ≤ ds.length - 0 + B - 1 := by omega
    have h3 := (Nat.one_le_div_iff hB).mpr h2
    omega
  show (upload_batch_loop remote ⟨B, true, 2, ib⟩ c ds es nv vn
      (List.range' 0 ((ds.length - 0 + B - 1) / B) B) 0 0).2.2
    = Except.error (UploadError.transient e)
  rw [hq, List.range'_succ]
  simp [upload_batch_loop, hur]

/-- Witness for C3: a remote that always fails with error 7. -/
theorem C3_retry_exhaustion_witness :
    (∀ i, (fun _ => some 7 : ℕ → Option ℕ) i = some 7) ∧
    upsertCount (upload_with_retry (fun _ => some 7) 1 "c" [] 2 0).1 = 2 ∧
    (upload_with_retry (fun _ => some 7) 1 "c" [] 2 0).2.2
      = Except.error (UploadError.transient 7) :=
  ⟨fun _ => rfl,
    (C3_retry_exhaustion (fun _ => some 7) 7 (fun _ => rfl) 1 "c" []).1,
    (C3_retry_exhaustion (fun _ => some 7) 7 (fun _ => rfl) 1 "c" []).2.1⟩

/-- The latency sample sorted ascending, as done inside `np.percentile`. -/
def sortedSample (l : List ℚ) : List ℚ :=
  l.insertionSort (fun a b => a ≤ b)

/-- Linear interpolation between ranks on a sorted sample: for a fractional
rank `pos`, interpolate between the values at `⌊pos⌋` and the next index
(clipped to the last index), matching `np.percentile`'s default method. -/
def interpAt (s : List ℚ) (pos : ℚ) : ℚ :=
  let i := (⌊pos⌋).toNat
  s.getD i 0 + (pos - (i : ℚ)) * (s.getD (min (i + 1) (s.length - 1)) 0 - s.getD i 0)

/-- Model of `np.percentile(l, q)` with linear interpolation: the value at fractional
rank `q/100 × (n-1)` of the sorted sample. -/
def percentile (l : List ℚ) (q : ℚ) : ℚ :=
  if l.length = 0 then 0
  else interpAt (sortedSample l) (q * ((l.length : ℚ) - 1) / 100)

/-- The statistics dictionary built by
`PerformanceBenchmark._calculate_metrics`. -/
structure MetricBundle where
  avg : ℚ
  p50 : ℚ
  p90 : ℚ
  p95 : ℚ
  p99 : ℚ
  p99_5 : ℚ
  p99_9 : ℚ
deriving DecidableEq

/-- Model of `PerformanceBenchmark._calculate_metrics`: mean plus the six
percentiles. -/
def calculate_metrics (latencies : List ℚ) : MetricBundle :=
  ⟨latencies.sum / latencies.length,
   percentile latencies 50, percentile latencies 90, percentile latencies 95,
   percentile latencies 99, percentile latencies 99.5, percentile latencies 99.9⟩

theorem sorted_getD_mono (s : List ℚ) (hs : s.Sorted (fun a b => a ≤ b)) (i j : ℕ)
    (hij : i ≤ j) (hj : j < s.length) : s.getD i 0 ≤ s.getD j 0 := by
  have hi : i < s.length := lt_of_le_of_lt hij hj
  rw [List.getD_eq_getElem s 0 hi, List.getD_eq_getElem s 0 hj]
  have h := hs.rel_get_of_le (a := ⟨i, hi⟩) (b := ⟨j, hj⟩) hij
  simpa using h

theorem interpAt_mono (s : List ℚ) (hs : s.Sorted (fun a b => a ≤ b)) (hn : 1 ≤ s.length)
    (p q : ℚ) (hp : 0 ≤ p) (hpq : p ≤ q) (hq : q ≤ (s.length : ℚ) - 1) :
    interpAt s p ≤ interpAt s q := by
  have hq0 : 0 ≤ q := le_trans hp hpq
  have hfp : 0 ≤ ⌊p⌋ := Int.floor_nonneg.mpr hp
  have hfq : 0 ≤ ⌊q⌋ := Int.floor_nonneg.mpr hq0
  have hcast : ((s.length - 1 : ℕ) : ℚ) = (s.length : ℚ) - 1 := by
    rw [Nat.cast_sub hn, Nat.cast_one]
  have hiq : ⌊q⌋ ≤ ((s.length - 1 : ℕ) : ℤ) := by
    have h2 : ⌊q⌋ ≤ ⌊((s.length - 1 : ℕ) : ℚ)⌋ :=
      Int.floor_le_floor (by rw [hcast]; exact hq)
    rwa [Int.floor_natCast] at h2
  have hi2top : (⌊q⌋).toNat ≤ s.length - 1 := Int.toNat_le.mpr hiq
  have hi12 : (⌊p⌋).toNat ≤ (⌊q⌋).toNat := Int.toNat_le_toNat (Int.floor_le_floor hpq)
  have hcp : (((⌊p⌋).toNat : ℕ) : ℚ) = ((⌊p⌋ : ℤ) : ℚ) := by
    rw [← Int.cast_natCast, Int.toNat_of_nonneg hfp]
  have hcq : (((⌊q⌋).toNat : ℕ) : ℚ) = ((⌊q⌋ : ℤ) : ℚ) := by
    rw [← Int.cast_natCast, Int.toNat_of_nonneg hfq]
  have hfr1a : 0 ≤ p - (((⌊p⌋).toNat : ℕ) : ℚ) := by
    rw [hcp]
    exact sub_nonneg.mpr (Int.floor_le p)
  have hfr1b : p - (((⌊p⌋).toNat : ℕ) : ℚ) ≤ 1 := by
    rw [hcp]
    have h3 := Int.fract_lt_one p
    rw [← Int.self_sub_floor] at h3
    linarith
  have hfr2a : 0 ≤ q - (((⌊q⌋).toNat : ℕ) : ℚ) := by
    rw [hcq]
    exact sub_nonneg.mpr (Int.floor_le q)
  have hlo2 : (⌊q⌋).toNat < s.length := by omega
  have hm1le : (⌊p⌋).toNat ≤ min ((⌊p⌋).toNat + 1) (s.length - 1) := by omega
  have hm1lt : min ((⌊p⌋).toNat + 1) (s.length - 1) < s.length := by omega
  have hm2le : (⌊q⌋).toNat ≤ min ((⌊q⌋).toNat + 1) (s.length - 1) := by omega
  have hm2lt : min ((⌊q⌋).toNat + 1) (s.length - 1) < s.length := by omega
  have hlohi1 := sorted_getD_mono s hs _ _ hm1le hm1lt
  have hlohi2 := sorted_getD_mono s hs _ _ hm2le hm2lt
  show s.getD (⌊p⌋).toNat 0 + (p - (((⌊p⌋).toNat : ℕ) : ℚ)) *
      (s.getD (min ((⌊p⌋).toNat + 1) (s.length - 1)) 0 - s.getD (⌊p⌋).toNat 0)
    ≤ s.getD (⌊q⌋).toNat 0 + (q - (((⌊q⌋).toNat : ℕ) : ℚ)) *
      (s.getD (min ((⌊q⌋).toNat + 1) (s.length - 1)) 0 - s.getD (⌊q⌋).toNat 0)
  rcases Nat.lt_or_ge (⌊p⌋).toNat (⌊q⌋).toNat with hlt | hge
  · have hstep : min ((⌊p⌋).toNat + 1) (s.length - 1) ≤ (⌊q⌋).toNat := by omega
    have hmid := sorted_getD_mono s hs _ _ hstep hlo2
    have hA : s.getD (⌊p⌋).toNat 0 + (p - (((⌊p⌋).toNat : ℕ) : ℚ)) *
        (s.getD (min ((⌊p⌋).toNat + 1) (s.length - 1)) 0 - s.getD (⌊p⌋).toNat 0)
        ≤ s.getD (min ((⌊p⌋).toNat + 1) (s.length - 1)) 0 := by
      nlinarith [hfr1a, hfr1b, hlohi1]
    have hC : s.getD (⌊q⌋).toNat 0
        ≤ s.getD (⌊q⌋).toNat 0 + (q - (((⌊q⌋).toNat : ℕ) : ℚ)) *
          (s.getD (min ((⌊q⌋).toNat + 1) (s.length - 1)) 0 - s.getD (⌊q⌋).toNat 0) := by
      nlinarith [hfr2a, hlohi2]
    linarith
  · have heq : (⌊p⌋).toNat = (⌊q⌋).toNat := le_antisymm hi12 hge
    rw [heq]
    apply add_le_add_left
    apply mul_le_mul_of_nonneg_right _ (sub_nonneg.mpr hlohi2)
    linarith

theorem percentile_mono (l : List ℚ) (hl : 1 ≤ l.length) (q1 q2 : ℚ)
    (h0 : 0 ≤ q1) (h12 : q1 ≤ q2) (h100 : q2 ≤ 100) :
    percentile l q1 ≤ percentile l q2 := by
  have hlen0 : ¬(l.length = 0) := by omega
  rw [percentile, percentile, if_neg hlen0, if_neg hlen0]
  have hslen : (sortedSample l).length = l.length := List.length_insertionSort _ l
  have hsorted : (sortedSample l).Sorted (fun a b => a ≤ b) := List.sorted_insertionSort _ l
  have hnn : (0 : ℚ) ≤ (l.length : ℚ) - 1 := by
    have hc : (1 : ℚ) ≤ (l.length : ℚ) := by exact_mod_cast hl
    linarith
  apply interpAt_mono _ hsorted (by omega)
  · exact div_nonneg (mul_nonneg h0 hnn) (by norm_num)
  · gcongr
  · rw [hslen]
    calc q2 * ((l.length : ℚ) - 1) / 100 ≤ 100 * ((l.length : ℚ) - 1) / 100 := by gcongr
    _ = (l.length : ℚ) - 1 := by ring

/-- Claim C5: the Metric Bundle of any sample with at least two elements has
non-decreasing percentiles p50 ≤ p90 ≤ p95 ≤ p99 ≤ p99.5 ≤ p99.9. -/
theorem C5_percentile_chain (l : List ℚ) (h2 : 2 ≤ l.length) :
    (calculate_metrics l).p50 ≤ (calculate_metrics l).p90 ∧
    (calculate_metrics l).p90 ≤ (calculate_metrics l).p95 ∧
    (calculate_metrics l).p95 ≤ (calculate_metrics l).p99 ∧
    (calculate_metrics l).p99 ≤ (calculate_metrics l).p99_5 ∧
    (calculate_metrics l).p99_5 ≤ (calculate_metrics l).p99_9 := by
  have hl : 1 ≤ l.length := by omega
  refine ⟨?_, ?_, ?_, ?_, ?_⟩ <;>
    exact percentile_mono l hl _ _ (by norm_num) (by norm_num) (by norm_num)

/-- Witness for C5 on the two-element sample [3, 1]. -/
theorem C5_percentile_chain_witness :
    2 ≤ ([3, 1] : List ℚ).length ∧
    ((calculate_metrics [3, 1]).p50 ≤ (calculate_metrics [3, 1]).p90 ∧
     (calculate_metrics [3, 1]).p90 ≤ (calculate_metrics [3, 1]).p95 ∧
     (calculate_metrics [3, 1]).p95 ≤ (calculate_metrics [3, 1]).p99 ∧
     (calculate_metrics [3, 1]).p99 ≤ (calculate_metrics [3, 1]).p99_5 ∧
     (calculate_metrics [3, 1]).p99_5 ≤ (calculate_metrics [3, 1]).p99_9) :=
  ⟨by decide, C5_percentile_chain [3, 1] (by decide)⟩

/-- The backend search-tuning parameters passed through to `query_points`
(`models.SearchParams` with a quantization block): a rescoring toggle and
an oversampling factor. -/
structure SearchParams where
  rescore : Bool
  oversampling : ℚ
deriving DecidableEq

/-- One remote `query_points` call as issued by the benchmark engine:
collection name, result limit, optional named-vector selector, optional
search params. -/
structure QueryCall where
  collection : String
  limit : ℕ
  usingField : Option String
  search_params : Option SearchParams
deriving DecidableEq

/-- Model of `PerformanceBenchmark.warmup`: one throwaway query (no search params)
when warmup is enabled, nothing otherwise. -/
def warmup (warmup_enabled : Bool) (limit : ℕ) (collection : String)
    (usingField : Option String) : List QueryCall :=
  if warmup_enabled then [⟨collection, limit, usingField, none⟩] else []

/-- The measuring loop of `measure_search_latency` (also the inline loops
of `benchmark_quantization` and the sweeps): one timed `query_points` call
per test query, in order, collecting the measured latencies.  `lat` is the
remote-latency oracle indexed by global query-call count. -/
def measure_loop (lat : ℕ → ℚ) (limit : ℕ) (collection : String)
    (usingField : Option String) (sp : Option SearchParams) :
    List String → ℕ → List QueryCall × List ℚ
  | [], _ => ([], [])
  | _q :: rest, callIdx =>
    let out := measure_loop lat limit collection usingField sp rest (callIdx + 1)
    (⟨collection, limit, usingField, sp⟩ :: out.1, lat callIdx :: out.2)

/-- Model of `PerformanceBenchmark.measure_search_latency`: warmup (if enabled),
then one query per test string, then reduction of the recorded samples to
a Metric Bundle.  Returns the query-call trace, the recorded latency
samples, and the bundle. -/
def measure_search_latency (lat : ℕ → ℚ) (warmup_enabled : Bool) (limit : ℕ)
    (collection : String) (test_queries : List String) (usingField : Option String)
    (sp : Option SearchParams) (callIdx : ℕ) :
    List QueryCall × List ℚ × MetricBundle :=
  let wcalls := warmup warmup_enabled limit collection usingField
  let out := measure_loop lat limit collection usingField sp test_queries
    (callIdx + wcalls.length)
  (wcalls ++ out.1, out.2, calculate_metrics out.2)

/-- The two Metric Bundles returned by `benchmark_quantization`, keyed by
mode. -/
structure QuantBenchResult where
  no_rescoring : MetricBundle
  with_rescoring : MetricBundle
deriving DecidableEq

/-- Model of `PerformanceBenchmark.benchmark_quantization`: a full
`measure_search_latency` run without search params, followed by an inline
loop issuing one rescoring query (oversampling 3.0) per test string and
reducing those latencies. -/
def benchmark_quantization (lat : ℕ → ℚ) (warmup_enabled : Bool) (limit : ℕ)
    (collection : String) (test_queries : List String) (callIdx : ℕ) :
    List QueryCall × QuantBenchResult :=
  let pass1 := measure_search_latency lat warmup_enabled limit collection test_queries
    none none callIdx
  let pass2 := measure_loop lat limit collection none (some ⟨true, 3⟩) test_queries
    (callIdx + pass1.1.length)
  (pass1.1 ++ pass2.1, ⟨pass1.2.2, calculate_metrics pass2.2⟩)

/-- Modelled from the spec's words for comparison: "runs the full latency
protocol twice against the same collection — once with no rescoring
parameters, once with rescoring enabled and a fixed default oversampling
multiplier". -/
def benchmark_quantization_claimed (lat : ℕ → ℚ) (warmup_enabled : Bool) (limit : ℕ)
    (collection : String) (test_queries : List String) (callIdx : ℕ) :
    List QueryCall × QuantBenchResult :=
  let pass1 := measure_search_latency lat warmup_enabled limit collection test_queries
    none none callIdx
  let pass2 := measure_search_latency lat warmup_enabled limit collection test_queries
    none (some ⟨true, 3⟩) (callIdx + pass1.1.length)
  (pass1.1 ++ pass2.1, ⟨pass1.2.2, pass2.2.2⟩)

theorem measure_loop_spec (lat : ℕ → ℚ) (limit : ℕ) (c : String) (u : Option String)
    (sp : Option SearchParams) :
    ∀ (qs : List String) (callIdx : ℕ),
      measure_loop lat limit c u sp qs callIdx
        = (qs.map (fun _ => (⟨c, limit, u, sp⟩ : QueryCall)),
           (List.range qs.length).map (fun j => lat (callIdx + j))) := by
  intro qs
  induction qs with
  | nil => intro callIdx; rfl
  | cons q rest ih =>
    intro callIdx
    simp only [measure_loop, ih, List.map_cons, List.length_cons, Prod.mk.injEq]
    refine ⟨trivial, ?_⟩
    rw [List.range_succ_eq_map, List.map_cons, List.map_map, Nat.add_zero]
    have hfg : ((fun j => lat (callIdx + j)) ∘ Nat.succ)
        = (fun j => lat (callIdx + 1 + j)) := by
      funext j
      simp only [Function.comp_apply, Nat.succ_eq_add_one]
      congr 1
      omega
    rw [hfg]
    simp

/-- Claim C6: a latency run over `N` test queries issues exactly `N` query calls
with warmup disabled and exactly `N+1` with warmup enabled; the recorded
samples are exactly the latencies of the `N` measurement calls, so the
warmup call's latency is never recorded. -/
theorem C6_warmup_call_count (lat : ℕ → ℚ) (limit : ℕ) (c : String)
    (qs : List String) (u : Option String) (sp : Option SearchParams) (callIdx : ℕ) :
    (measure_search_latency lat false limit c qs u sp callIdx).1.length = qs.length ∧
    (measure_search_latency lat true limit c qs u sp callIdx).1.length = qs.length + 1 ∧
    (measure_search_latency lat false limit c qs u sp callIdx).2.1
      = (List.range qs.length).map (fun j => lat (callIdx + j)) ∧
    (measure_search_latency lat true limit c qs u sp callIdx).2.1
      = (List.range qs.length).map (fun j => lat (callIdx + 1 + j)) := by
  refine ⟨?_, ?_, ?_, ?_⟩
  · simp [measure_search_latency, warmup, measure_loop_spec]
  · simp [measure_search_latency, warmup, measure_loop_spec]
  · simp [measure_search_latency, warmup, measure_loop_spec]
  · simp only [measure_search_latency, warmup, if_pos rfl, List.length_singleton,
      measure_loop_spec]
    rfl

/-- Claim C9 (amended): `benchmark_quantization` runs the full latency protocol
once with no rescoring parameters, then runs the measuring and reducing
steps with rescoring at oversampling 3.0 but with no further warmup query
(i.e. the second pass equals `measure_search_latency` with warmup
disabled), and returns both Metric Bundles keyed by mode. -/
theorem C9_benchmark_quantization_passes (lat : ℕ → ℚ) (w : Bool) (limit : ℕ)
    (c : String) (qs : List String) (callIdx : ℕ) :
    benchmark_quantization lat w limit c qs callIdx
      = ((measure_search_latency lat w limit c qs none none callIdx).1
          ++ (measure_search_latency lat false limit c qs none (some ⟨true, 3⟩)
              (callIdx + (measure_search_latency lat w limit c qs none none callIdx).1.length)).1,
         ⟨(measure_search_latency lat w limit c qs none none callIdx).2.2,
          (measure_search_latency lat false limit c qs none (some ⟨true, 3⟩)
            (callIdx + (measure_search_latency lat w limit c qs none none callIdx).1.length)).2.2⟩) := by
  simp [benchmark_quantization, measure_search_latency, warmup]

/-- Counterexample to C9 as stated: with warmup enabled and one test query
the code issues 3 query calls (one warmup, one plain measurement, one
rescoring measurement), while running the full protocol twice would issue
4 (a second warmup before the rescoring pass). -/
theorem C9_full_protocol_twice_counterexample :
    (benchmark_quantization (fun _ => 0) true 10 "q" ["a"] 0).1.length = 3 ∧
    (benchmark_quantization_claimed (fun _ => 0) true 10 "q" ["a"] 0).1.length = 4 ∧
    (benchmark_quantization (fun _ => 0) true 10 "q" ["a"] 0).1
      ≠ (benchmark_quantization_claimed (fun _ => 0) true 10 "q" ["a"] 0).1 := by
  refine ⟨rfl, rfl, ?_⟩
  decide

/-- Model of `PerformanceBenchmark.measure_accuracy_retention` and its per-query overlap
score: `overlap / len(baseline_ids) if baseline_ids else 0`. -/
def accuracy_score (baseline_ids quantized_ids : Finset ℕ) : ℚ :=
  if baseline_ids = ∅ then 0
  else ((baseline_ids ∩ quantized_ids).card : ℚ) / (baseline_ids.card : ℚ)

/-- Claim C7: the Accuracy Score equals |baseline ∩ candidate| / |baseline|, lies
in [0, 1], is 0 for an empty baseline regardless of the candidate, and is
0.6 on the spec's example sets. -/
theorem C7_accuracy_score (b k : Finset ℕ) :
    accuracy_score b k = ((b ∩ k).card : ℚ) / (b.card : ℚ) ∧
    0 ≤ accuracy_score b k ∧ accuracy_score b k ≤ 1 ∧
    (b = ∅ → accuracy_score b k = 0) ∧
    accuracy_score {1, 2, 3, 4, 5} {1, 2, 3, 6, 7} = 0.6 := by
  have hcard : (b ∩ k).card ≤ b.card := Finset.card_le_card Finset.inter_subset_left
  refine ⟨?_, ?_, ?_, ?_, ?_⟩
  · rw [accuracy_score]
    by_cases hb : b = ∅
    · rw [if_pos hb, hb]
      simp
    · rw [if_neg hb]
  · rw [accuracy_score]
    by_cases hb : b = ∅
    · rw [if_pos hb]
    · rw [if_neg hb]
      positivity
  · rw [accuracy_score]
    by_cases hb : b = ∅
    · rw [if_pos hb]
      norm_num
    · rw [if_neg hb]
      have hpos : 0 < b.card := Finset.card_pos.mpr (Finset.nonempty_of_ne_empty hb)
      rw [div_le_one (by exact_mod_cast hpos)]
      exact_mod_cast hcard
  · intro hb
    rw [accuracy_score, if_pos hb]
  · have h1 : (({1, 2, 3, 4, 5} : Finset ℕ) ∩ {1, 2, 3, 6, 7}).card = 3 := by decide
    have h2 : ({1, 2, 3, 4, 5} : Finset ℕ).card = 5 := by decide
    have h3 : ¬(({1, 2, 3, 4, 5} : Finset ℕ) = ∅) := by decide
    rw [accuracy_score, if_neg h3, h1, h2]
    norm_num

/-- Witness for C7: the spec's concrete example evaluates to 0.6. -/
theorem C7_accuracy_score_witness :
    accuracy_score {1, 2, 3, 4, 5} {1, 2, 3, 6, 7} = 0.6 :=
  (C7_accuracy_score {1, 2, 3, 4, 5} {1, 2, 3, 6, 7}).2.2.2.2

/-- Collection layouts known to `QdrantCollectionManager`. -/
inductive CollKind where
  | standard
  | hybrid
  | quantized
deriving DecidableEq

/-- Remote calls issued by the collection manager. -/
inductive ManagerEvent where
  | existsCheck (name : String)
  | deleteCall (name : String)
  | createCall (name : String) (kind : CollKind)
deriving DecidableEq

/-- Configuration errors raised by the collection manager before a create
call. -/
inductive ConfigError where
  | missingQuantConfig
deriving DecidableEq

/-- Model of `QdrantCollectionManager.delete_collection`: an existence check, then a
delete call only when the collection exists (`existsB` is the remote's
answer to the check). -/
def delete_collection (existsB : Bool) (name : String) : List ManagerEvent :=
  ManagerEvent.existsCheck name ::
    (if existsB then [ManagerEvent.deleteCall name] else [])

/-- Model of `QdrantCollectionManager.recreate_collection`: delete-if-exists first,
then dispatch on the collection type string; the missing-quantization-config
`ValueError` is raised after the delete step, before any create call. -/
def recreate_collection (existsB : Bool) (name : String) (collection_type : String)
    (quantization_config : Option ℕ) : List ManagerEvent × Except ConfigError Unit :=
  if collection_type = "hybrid" then
    (delete_collection existsB name ++ [ManagerEvent.createCall name CollKind.hybrid],
     Except.ok ())
  else if collection_type = "quantized" then
    match quantization_config with
    | none => (delete_collection existsB name, Except.error ConfigError.missingQuantConfig)
    | some _ =>
      (delete_collection existsB name ++ [ManagerEvent.createCall name CollKind.quantized],
       Except.ok ())
  else
    (delete_collection existsB name ++ [ManagerEvent.createCall name CollKind.standard],
     Except.ok ())

/-- Claim C8 (amended): `recreate` is delete-if-exists followed by create-by-kind;
for kind "quantized" with no quantization config it raises the configuration
error after the delete-if-exists step and before any create call, so an
existing collection of that name has already been deleted. -/
theorem C8_recreate_collection (existsB : Bool) (name : String) (qc : ℕ) :
    recreate_collection existsB name "quantized" none
      = (delete_collection existsB name, Except.error ConfigError.missingQuantConfig) ∧
    (∀ k, ManagerEvent.createCall name k ∉ (recreate_collection existsB name "quantized" none).1) ∧
    recreate_collection existsB name "quantized" (some qc)
      = (delete_collection existsB name ++ [ManagerEvent.createCall name CollKind.quantized],
         Except.ok ()) ∧
    recreate_collection existsB name "hybrid" none
      = (delete_collection existsB name ++ [ManagerEvent.createCall name CollKind.hybrid],
         Except.ok ()) ∧
    recreate_collection existsB name "standard" none
      = (delete_collection existsB name ++ [ManagerEvent.createCall name CollKind.standard],
         Except.ok ()) := by
  refine ⟨by simp [recreate_collection], ?_, by simp [recreate_collection],
    by simp [recreate_collection], by simp [recreate_collection]⟩
  intro k
  simp [recreate_collection, delete_collection]

/-- Witness for C8's amended statement at a concrete instance. -/
theorem C8_recreate_collection_witness :
    recreate_collection true "bench" "quantized" none
      = (delete_collection true "bench", Except.error ConfigError.missingQuantConfig) ∧
    ManagerEvent.createCall "bench" CollKind.quantized
      ∉ (recreate_collection true "bench" "quantized" none).1 :=
  ⟨(C8_recreate_collection true "bench" 0).1,
    (C8_recreate_collection true "bench" 0).2.1 CollKind.quantized⟩

/-- Counterexample to C8 as stated: with an existing collection, the
missing-config error is raised only after a remote existence check and a
remote delete call, so the existing collection is not left untouched. -/
theorem C8_recreate_collection_counterexample :
    (recreate_collection true "bench" "quantized" none).2
      = Except.error ConfigError.missingQuantConfig ∧
    ManagerEvent.deleteCall "bench" ∈ (recreate_collection true "bench" "quantized" none).1 ∧
    (recreate_collection true "bench" "quantized" none).1 ≠ [] := by
  refine ⟨rfl, ?_, by decide⟩
  decide

end QQB
